import Mathlib

/-!
Shallow embedding of the Bybit exchange adapter (`bybit.py`) and proofs
about the claims of its specification.

Conventions of the embedding:
* Python `float` values are modelled as `ℚ`; the adapter only moves these
  numbers around, it performs no float-specific arithmetic relevant here.
* A fallible external parse (`int(...)`, `float(...)`, `date_to_ts(...)`,
  a missing dictionary key) is modelled as an `Option`-valued field: `none`
  means the Python expression raises for that record.
* A Python `try/except` block is modelled by matching on the `Option` or
  `Except` value of the code it guards.
* Vendor JSON objects are modelled as association lists or as structures
  carrying exactly the fields the code reads.
-/

namespace BybitAdapter

/-! ### String helpers

The Lean core string functions (`String.toLower`, `String.endsWith`) do not
reduce in the kernel, so the embedding uses structurally recursive
equivalents over `String.data`.  They implement the same functions the
Python code calls (`str.lower`, `str.endswith`, substring `in`) for the
ASCII strings the adapter handles. -/

/-- ASCII lower-casing of one character, as Python `str.lower` acts on the
ASCII strings used by the adapter. -/
def lowerChar (c : Char) : Char :=
  if 'A' ≤ c ∧ c ≤ 'Z' then Char.ofNat (c.toNat + 32) else c

/-- Python `s.lower()` for ASCII strings. -/
def lowerStr (s : String) : String := String.mk (s.data.map lowerChar)

/-- Python `s.endswith(suf)`. -/
def endsWithB (s suf : String) : Bool := suf.data.isSuffixOf s.data

/-- Whether `pat` occurs as a contiguous sublist of the second list. -/
def subListB (pat : List Char) : List Char → Bool
  | [] => pat.isEmpty
  | c :: cs => pat.isPrefixOf (c :: cs) || subListB pat cs

/-- Python substring containment `pat in s`. -/
def strContains (s pat : String) : Bool := pat.isEmpty || subListB pat.data s.data

/-! ### Ticks: the canonical normalized record

`format_tick` (module level, `bybit.py` lines 20–25) builds a dict with the
five canonical fields.  A normalized tick is modelled as an association
list from field name to value, so that *which fields are present* is part
of the value — the claims about the WebSocket path are about exactly that. -/

/-- A field value of a normalized tick record. -/
inductive FVal where
  | int (n : Int)
  | num (x : ℚ)
  | bool (v : Bool)
  | str (v : String)
deriving DecidableEq

/-- A normalized tick: field name to value, in insertion order. -/
abbrev Tick := List (String × FVal)

/-- A raw REST trade record, holding the parse results of the expressions
`int(tick['id'])`, `float(tick['price'])`, `float(tick['qty'])`,
`date_to_ts(tick['time'])` and the raw `tick['side']` string; `none` means
the corresponding Python expression raises for this record (missing key or
unparseable text), i.e. the record is malformed. -/
structure RawTick where
  id : Option Int
  price : Option ℚ
  qty : Option ℚ
  time : Option ℚ
  side : Option String
deriving DecidableEq

/-- `format_tick` (`bybit.py` lines 20–25): builds the canonical tick dict;
raises (`none`) as soon as one field fails to parse. -/
def format_tick (t : RawTick) : Option Tick := do
  let i ← t.id
  let p ← t.price
  let q ← t.qty
  let ts ← t.time
  let sd ← t.side
  pure [("trade_id", .int i), ("price", .num p), ("qty", .num q),
        ("timestamp", .num ts), ("is_buyer_maker", .bool (sd == "Sell"))]

/-- `list(map(format_tick, ticks['result']))` with Python exception
semantics: the first record on which `format_tick` raises aborts the whole
`list(map(...))` expression. -/
def format_batch : List RawTick → Option (List Tick)
  | [] => some []
  | t :: ts =>
    match format_tick t, format_batch ts with
    | some x, some xs => some (x :: xs)
    | _, _ => none

/-- `Bybit.fetch_ticks` (`bybit.py` lines 264–282).  The transport call
`self.public_get(...)` is the `Except` argument: `Except.error ()` is a
raised transport exception (the first `try` block returns `[]`), `Except.ok`
carries the parsed `ticks['result']` batch.  The second `try` block wraps
`list(map(format_tick, ...))` (and the optional print) and sets
`trades = []` on any exception.  `do_print` does not affect the returned
value: when `trades` is empty, the `trades[0]` lookup inside the same `try`
raises and the handler re-assigns the already empty list. -/
def fetch_ticks (transport : Except Unit (List RawTick)) : List Tick :=
  match transport with
  | .error _ => []
  | .ok raw =>
    match format_batch raw with
    | some trades => trades
    | none => []

/-! ### WebSocket tick normalization -/

/-- A raw WebSocket trade record: parse results of `float(e['price'])`,
`float(e['size'])` and the raw `e['side']` string; `none` means the
expression raises for this record. -/
structure WsRaw where
  price : Option ℚ
  size : Option ℚ
  side : Option String
deriving DecidableEq

/-- `Bybit.standardize_websocket_ticks` (`bybit.py` lines 319–326): builds,
for each record of `data['data']`, a dict with fields `price`, `qty` and
`is_buyer_maker`; a record whose `try` block raises is skipped. -/
def standardize_websocket_ticks (data : List WsRaw) : List Tick :=
  data.filterMap fun e =>
    match e.price, e.size, e.side with
    | some p, some s, some sd =>
      some [("price", .num p), ("qty", .num s), ("is_buyer_maker", .bool (sd == "Sell"))]
    | _, _, _ => none

/-! ### Concrete records used by counterexamples and witnesses -/

/-- The spec's example REST record
`{id:42, price:"100.5", qty:"2", time:"2021-01-01T00:00:00Z", side:"Sell"}`
after the field parses. -/
def goodRec : RawTick :=
  { id := some 42, price := some (100.5 : ℚ), qty := some 2,
    time := some 1609459200000, side := some "Sell" }

/-- A malformed REST record: every field parse raises. -/
def badRec : RawTick :=
  { id := none, price := none, qty := none, time := none, side := none }

/-- A well-formed WebSocket trade record. -/
def wsGood : WsRaw :=
  { price := some (100.5 : ℚ), size := some 2, side := some "Sell" }

/-! ### Claim C7: market-type resolution -/

/-- The part of the adapter state `Bybit.init_market_type` assigns that the
claims mention: the market-type tag and the inversion flag.  The endpoint
table assigned alongside them (`bybit.py` lines 63–96) carries no logic and
is not needed by any claim. -/
structure MarketTypeInit where
  market_type : String
  inverse : Bool
deriving DecidableEq

/-- `Bybit.init_market_type` (`bybit.py` lines 58–96): classifies the symbol
by suffix and fixes the inversion flag. -/
def init_market_type (symbol : String) : MarketTypeInit :=
  if endsWithB symbol "USDT" then
    { market_type := "linear_perpetual", inverse := false }
  else if endsWithB symbol "USD" then
    { market_type := "inverse_perpetual", inverse := true }
  else
    { market_type := "inverse_futures", inverse := true }

/-! ### Claim C6: position-side inference -/

/-- `Bybit.determine_pos_side` (`bybit.py` lines 98–114): the 4-entry
decision table over (lower-cased raw side, custom-id tag occurring in
`order_link_id`), with sentinel fallbacks. -/
def determine_pos_side (side order_link_id : String) : String :=
  if lowerStr side == "buy" then
    if strContains order_link_id "entry" then "long"
    else if strContains order_link_id "close" then "shrt"
    else "unknown"
  else
    if strContains order_link_id "entry" then "shrt"
    else if strContains order_link_id "close" then "long"
    else "both"

/-! ### Position reconciliation (`Bybit.fetch_position`) -/

/-- The raw per-side record `fetch_position` reads: the fields `size`,
`entry_price`, `leverage`, `liq_price` of the vendor position dict (after
the `float(...)` conversions, which are identities here). -/
structure RawPos where
  size : ℚ
  entry_price : ℚ
  leverage : ℚ
  liq_price : ℚ
deriving DecidableEq

/-- One reconciled side of a `Position` (`position['long']` /
`position['shrt']` in the code). -/
structure SubPos where
  size : ℚ
  price : ℚ
  leverage : ℚ
  liquidation_price : ℚ
  upnl : ℚ
deriving DecidableEq

/-- The reconciled position dict `Bybit.fetch_position` returns. -/
structure Position where
  long : SubPos
  shrt : SubPos
  wallet_balance : ℚ
  equity : ℚ
deriving DecidableEq

/-- `bybit.py` lines 206–224: the market-type-independent join of
`fetch_position`.  `calc_long_pnl` and `calc_shrt_pnl` are the externally
supplied pricing functions (imported from the repository's `jitted`
module), taken as parameters applied to (entry price, mark price, signed
size, inversion flag, contract multiplier); `mark_price` is `self.price`. -/
def build_position (calc_long_pnl calc_shrt_pnl : ℚ → ℚ → ℚ → Bool → ℚ → ℚ)
    (mark_price : ℚ) (inverse : Bool) (contract_multiplier : ℚ)
    (long_pos shrt_pos : RawPos) (wallet_balance : ℚ) : Position :=
  let long_size := long_pos.size
  let long_price := long_pos.entry_price
  let shrt_size := -shrt_pos.size
  let shrt_price := shrt_pos.entry_price
  let long_upnl := if long_price ≠ 0 then
    calc_long_pnl long_price mark_price long_size inverse contract_multiplier else 0
  let shrt_upnl := if shrt_price ≠ 0 then
    calc_shrt_pnl shrt_price mark_price shrt_size inverse contract_multiplier else 0
  { long := { size := long_size, price := long_price, leverage := long_pos.leverage,
              liquidation_price := long_pos.liq_price, upnl := long_upnl }
    shrt := { size := shrt_size, price := shrt_price, leverage := shrt_pos.leverage,
              liquidation_price := shrt_pos.liq_price, upnl := shrt_upnl }
    wallet_balance := wallet_balance
    equity := wallet_balance + (long_upnl + shrt_upnl) }

/-- An element of the InverseFutures position response `fetched['result']`:
the code reads `e['data']` and, of it, `position_idx` plus the `RawPos`
fields. -/
structure FutEntry where
  data_idx : Nat
  data_pos : RawPos
deriving DecidableEq

/-- `bybit.py` lines 202–204, the InverseFutures side lookup:
`[e['data'] for e in fetched['result'] if e['data']['position_idx'] == i][0]`
for `i = 1` (long) and `i = 2` (short).  Python `[0]` on an empty list
raises `IndexError`, modelled by `none`: `none` means `fetch_position`
raises instead of returning a `Position`. -/
def fetch_position_inverse_futures_sides (result : List FutEntry) :
    Option (RawPos × RawPos) :=
  match ((result.filter (fun e => e.data_idx == 1)).map (fun e => e.data_pos)).head?,
        ((result.filter (fun e => e.data_idx == 2)).map (fun e => e.data_pos)).head? with
  | some long_pos, some shrt_pos => some (long_pos, shrt_pos)
  | _, _ => none

/-- An InverseFutures response record for position index 1 (long). -/
def futLongEntry : FutEntry :=
  { data_idx := 1, data_pos := { size := 1, entry_price := 100, leverage := 10, liq_price := 90 } }

/-- An InverseFutures response record for position index 2 (short). -/
def futShrtEntry : FutEntry :=
  { data_idx := 2, data_pos := { size := 2, entry_price := 110, leverage := 10, liq_price := 150 } }

/-! ### Request signing (`Bybit.private_`, `bybit.py` lines 158–171)

The external stdlib collaborators are parameters of the embedding:
`hmac_sha256 secret message` stands for
`hmac.new(secret.encode(), message.encode(), hashlib.sha256).hexdigest()`,
`urlencode` for `urllib.parse.urlencode`, and `float_str` for Python
`str` on a float.  `sort_dict_keys` is imported from the repository's
`passivbot` module, whose source is not among the staged files; it is
modelled from the spec (see its doc comment). -/

/-- A Python parameter value as `private_` sees it: string, bool, float or
int. -/
inductive PVal where
  | str (v : String)
  | boolv (v : Bool)
  | floatv (x : ℚ)
  | intv (n : Int)
deriving DecidableEq

/-- Python `d[k] = v` on a dict modelled as an association list: replace
the value at an existing key, else append the new pair. -/
def dict_update (d : List (String × PVal)) (k : String) (v : PVal) :
    List (String × PVal) :=
  if d.any (fun kv => kv.1 == k) then
    d.map (fun kv => if kv.1 == k then (k, v) else kv)
  else d ++ [(k, v)]

/-- The body of the coercion loop of `private_` (`bybit.py` lines 161–165):
a bool becomes the literal string `"true"`/`"false"`, a float its
`str(...)` form, everything else is untouched. -/
def coerce_param (float_str : ℚ → String) : PVal → PVal
  | .boolv b => .str (if b then "true" else "false")
  | .floatv x => .str (float_str x)
  | v => v

/-- The coercion loop over the whole parameter dict. -/
def coerce_params (float_str : ℚ → String) (d : List (String × PVal)) :
    List (String × PVal) :=
  d.map (fun kv => (kv.1, coerce_param float_str kv.2))

/-- `params.update({'api_key': self.key, 'timestamp': timestamp})`
(`bybit.py` line 160). -/
def inject_auth (key : String) (t : Int) (params : List (String × PVal)) :
    List (String × PVal) :=
  dict_update (dict_update params "api_key" (PVal.str key)) "timestamp" (PVal.intv t)

/-- Insert a pair in front of the first entry with a key not below it. -/
def insert_by_key (kv : String × PVal) : List (String × PVal) → List (String × PVal)
  | [] => [kv]
  | x :: xs => if kv.1 ≤ x.1 then kv :: x :: xs else x :: insert_by_key kv xs

/-- Modelled from the spec: `sort_dict_keys` comes from the repository's
`passivbot` module, which is not among the staged source files; the spec
step says "sort parameters by key", so it is modelled as sorting the
association list by key (insertion sort over the string order). -/
def sort_dict_keys : List (String × PVal) → List (String × PVal)
  | [] => []
  | x :: xs => insert_by_key x (sort_dict_keys xs)

/-- `Bybit.private_` (`bybit.py` lines 158–171), the signing part: inject
`api_key` and the millisecond timestamp, coerce bool and float values to
strings, and attach as `sign` the hex HMAC-SHA256 digest, keyed by the
secret, of the URL-encoding of the key-sorted parameters.  Returns the
parameter dict as sent. -/
def private_sign (hmac_sha256 : String → String → String)
    (urlencode : List (String × PVal) → String) (float_str : ℚ → String)
    (key secret : String) (params : List (String × PVal)) (timestamp : Int) :
    List (String × PVal) :=
  let ps := inject_auth key timestamp params
  let cs := coerce_params float_str ps
  dict_update cs "sign" (PVal.str (hmac_sha256 secret (urlencode (sort_dict_keys cs))))

/-! ### Order cancellation (`Bybit.execute_cancellation`) -/

/-- The fields of the resting-order dict that `execute_cancellation` reads:
`order_id` is sent to the venue, the rest fills the normalized record. -/
structure RestingOrder where
  order_id : String
  side : String
  position_side : String
  qty : ℚ
  price : ℚ
deriving DecidableEq

/-- The normalized cancellation record `execute_cancellation` returns. -/
structure CancelRecord where
  symbol : String
  side : String
  position_side : String
  qty : ℚ
  price : ℚ
deriving DecidableEq

/-- Modelled from the spec: the vendor's "order not found" report.  The code
never inspects the cancel-order response, so the source fixes no shape for
it; per the spec ("A vendor report of 'order not found'"), a response is
such a report when its `ret_msg` field mentions `order not found`. -/
def reports_not_found (resp : List (String × String)) : Bool :=
  match List.lookup "ret_msg" resp with
  | some m => strContains m "order not found"
  | none => false

/-- `Bybit.execute_cancellation` (`bybit.py` lines 257–262): posts the
cancel request (whose parsed vendor response is `resp`) and returns the
normalized record built from the symbol and the order's own fields; the
response is never examined. -/
def execute_cancellation (_resp : List (String × String)) (symbol : String)
    (order : RestingOrder) : CancelRecord :=
  { symbol := symbol, side := order.side, position_side := order.position_side,
    qty := order.qty, price := order.price }

/-! ### Batch lemmas -/

/-- One malformed record aborts the whole `list(map(format_tick, ...))`. -/
theorem format_batch_eq_none {raw : List RawTick} {r : RawTick}
    (hmem : r ∈ raw) (hr : format_tick r = none) : format_batch raw = none := by
  induction raw with
  | nil => cases hmem
  | cons a l ih =>
    rcases List.mem_cons.mp hmem with h | h
    · subst h
      simp only [format_batch, hr]
    · simp only [format_batch, ih h]
      cases format_tick a <;> rfl

/-- `Claim C1` (counterexample): a batch holding the spec's example record
and one malformed record — exactly one malformed among N = 1 well-formed —
yields the empty list, not the N = 1 normalized ticks the claim asserts. -/
theorem fetch_ticks_mixed_batch_counterexample :
    format_tick badRec = none ∧ (format_tick goodRec).isSome = true ∧
      fetch_ticks (Except.ok [goodRec, badRec]) = [] := by
  refine ⟨rfl, rfl, ?_⟩
  decide

/-- Claim C1 (amended): `Bybit.fetch_ticks` does not skip a malformed
record: any batch containing at least one record on which `format_tick`
raises yields the empty list — the entire batch is discarded by the
`except` branch, well-formed records included. -/
theorem fetch_ticks_discards_batch_on_malformed (raw : List RawTick)
    (h : ∃ r ∈ raw, format_tick r = none) :
    fetch_ticks (Except.ok raw) = [] := by
  obtain ⟨r, hmem, hr⟩ := h
  simp only [fetch_ticks, format_batch_eq_none hmem hr]

/-- Claim C1 (witness): the amended theorem at the concrete mixed batch. -/
theorem fetch_ticks_discards_batch_on_malformed_witness :
    fetch_ticks (Except.ok [goodRec, badRec]) = [] :=
  fetch_ticks_discards_batch_on_malformed [goodRec, badRec]
    ⟨badRec, by decide, by decide⟩

/-- `Claim C2` (counterexample): a raised transport call and a successfully
fetched but entirely malformed batch produce the **same** value `[]`; the
caller cannot tell the two outcomes apart, contrary to the claim. -/
theorem fetch_ticks_collapse_counterexample :
    fetch_ticks (Except.error ()) = fetch_ticks (Except.ok [badRec]) ∧
      fetch_ticks (Except.error ()) = ([] : List Tick) := by
  constructor <;> decide

/-- Claim C2 (amended): `Bybit.fetch_ticks` collapses both failure shapes
into the same empty list: a raised transport call returns `[]`, and so does
a successful fetch whose batch is entirely malformed — the two outcomes are
indistinguishable in the returned value. -/
theorem fetch_ticks_failure_indistinguishable (raw : List RawTick)
    (h : ∀ r ∈ raw, format_tick r = none) :
    fetch_ticks (Except.ok raw) = fetch_ticks (Except.error ()) := by
  cases raw with
  | nil => rfl
  | cons a l =>
    simp only [fetch_ticks,
      format_batch_eq_none (List.mem_cons_self a l) (h a (List.mem_cons_self a l))]

/-- Claim C2 (witness): the amended theorem at a concrete malformed batch. -/
theorem fetch_ticks_failure_indistinguishable_witness :
    fetch_ticks (Except.ok [badRec]) = fetch_ticks (Except.error ()) :=
  fetch_ticks_failure_indistinguishable [badRec] (by decide)

/-! ### Claim C9: shape of WebSocket-normalized ticks -/

/-- Looking up `timestamp` or `trade_id` in a three-field WS tick finds
nothing, whatever the field values are. -/
theorem lookup_ws_tick_fields (p s : ℚ) (b : Bool) :
    List.lookup "timestamp"
        [("price", FVal.num p), ("qty", FVal.num s), ("is_buyer_maker", FVal.bool b)] = none ∧
      List.lookup "trade_id"
        [("price", FVal.num p), ("qty", FVal.num s), ("is_buyer_maker", FVal.bool b)] = none := by
  constructor <;> rfl

/-- `Claim C9` (counterexample): a well-formed WS trade record yields a tick
with exactly the fields `price`, `qty`, `is_buyer_maker`; `timestamp` is
absent from it, contrary to the claim that only `trade_id` is missing
relative to the canonical Tick shape. -/
theorem ws_tick_no_timestamp_counterexample :
    standardize_websocket_ticks [wsGood] =
        [[("price", FVal.num (100.5 : ℚ)), ("qty", FVal.num 2),
          ("is_buyer_maker", FVal.bool true)]] ∧
      List.lookup "timestamp" ((standardize_websocket_ticks [wsGood]).headD []) = none := by
  constructor <;> rfl

/-- Claim C9 (amended): for every well-formed WebSocket trade record, WS
normalization produces a tick carrying `price`, `qty` and `is_buyer_maker`
(with `is_buyer_maker` true exactly when the side flag is `"Sell"`), and
**both** `trade_id` and `timestamp` are absent relative to the canonical
Tick shape. -/
theorem standardize_websocket_ticks_shape (data : List WsRaw) :
    (∀ t ∈ standardize_websocket_ticks data,
        List.lookup "timestamp" t = none ∧ List.lookup "trade_id" t = none) ∧
      (∀ e ∈ data, ∀ (p s : ℚ) (sd : String),
        e.price = some p → e.size = some s → e.side = some sd →
        [("price", FVal.num p), ("qty", FVal.num s),
         ("is_buyer_maker", FVal.bool (sd == "Sell"))] ∈
          standardize_websocket_ticks data) := by
  constructor
  · intro t ht
    rw [standardize_websocket_ticks, List.mem_filterMap] at ht
    obtain ⟨e, -, he⟩ := ht
    rcases e with ⟨ep, es, ed⟩
    rcases ep with _ | p <;> rcases es with _ | s <;> rcases ed with _ | sd <;>
      simp only [Option.some.injEq, reduceCtorEq] at he
    rw [← he]
    exact lookup_ws_tick_fields p s (sd == "Sell")
  · intro e he p s sd hp hs hd
    rw [standardize_websocket_ticks, List.mem_filterMap]
    refine ⟨e, he, ?_⟩
    rcases e with ⟨ep, es, ed⟩
    simp only at hp hs hd
    rw [hp, hs, hd]

/-- Claim C7: a symbol resolves to `linear_perpetual` exactly when it ends
with `"USDT"`, to `inverse_perpetual` exactly when it ends with `"USD"` but
not `"USDT"`, and to `inverse_futures` in all remaining cases. -/
theorem init_market_type_classification (symbol : String) :
    ((init_market_type symbol).market_type = "linear_perpetual" ↔
        endsWithB symbol "USDT" = true) ∧
      ((init_market_type symbol).market_type = "inverse_perpetual" ↔
        (endsWithB symbol "USD" = true ∧ endsWithB symbol "USDT" = false)) ∧
      ((init_market_type symbol).market_type = "inverse_futures" ↔
        (endsWithB symbol "USD" = false ∧ endsWithB symbol "USDT" = false)) := by
  rcases h1 : endsWithB symbol "USDT" <;> rcases h2 : endsWithB symbol "USD" <;>
    simp only [init_market_type, h1, h2, if_true, if_false, Bool.false_eq_true,
      Bool.true_eq_false, ite_true, ite_false] <;> refine ⟨?_, ?_, ?_⟩ <;>
    constructor <;> intro h <;>
    first
      | rfl
      | exact ⟨rfl, rfl⟩
      | exact trivial
      | exact ⟨trivial, trivial⟩
      | exact absurd h (by decide)

/-- Claim C6: position-side inference follows the closed decision table —
buy+entry ↦ long, buy+close ↦ shrt, sell+entry ↦ shrt, sell+close ↦ long —
and falls back to the explicit sentinel `"unknown"` (buy) or `"both"`
(sell) when neither tag occurs, instead of failing. -/
theorem determine_pos_side_table (side link : String) :
    (lowerStr side = "buy" → strContains link "entry" = true →
        determine_pos_side side link = "long") ∧
      (lowerStr side = "buy" → strContains link "entry" = false →
        strContains link "close" = true → determine_pos_side side link = "shrt") ∧
      (lowerStr side = "sell" → strContains link "entry" = true →
        determine_pos_side side link = "shrt") ∧
      (lowerStr side = "sell" → strContains link "entry" = false →
        strContains link "close" = true → determine_pos_side side link = "long") ∧
      (lowerStr side = "buy" → strContains link "entry" = false →
        strContains link "close" = false → determine_pos_side side link = "unknown") ∧
      (lowerStr side = "sell" → strContains link "entry" = false →
        strContains link "close" = false → determine_pos_side side link = "both") := by
  have hne : ("sell" == "buy") = false := by decide
  refine ⟨?_, ?_, ?_, ?_, ?_, ?_⟩
  · intro h1 h2
    simp only [determine_pos_side, h1, h2, beq_self_eq_true, ite_true]
  · intro h1 h2 h3
    simp only [determine_pos_side, h1, h2, h3, beq_self_eq_true, ite_true,
      Bool.false_eq_true, ite_false]
  · intro h1 h2
    simp only [determine_pos_side, h1, h2, hne, Bool.false_eq_true, ite_false, ite_true]
  · intro h1 h2 h3
    simp only [determine_pos_side, h1, h2, h3, hne, Bool.false_eq_true, ite_false, ite_true]
  · intro h1 h2 h3
    simp only [determine_pos_side, h1, h2, h3, beq_self_eq_true, ite_true,
      Bool.false_eq_true, ite_false]
  · intro h1 h2 h3
    simp only [determine_pos_side, h1, h2, h3, hne, Bool.false_eq_true, ite_false]

/-- `Claim C3`: on an InverseFutures position response holding only the
index-1 record, the side lookup fails (`none`, i.e. `fetch_position` raises
`IndexError` on `[...][0]`) instead of substituting the zero-size
placeholder for the missing index-2 side; with both records present it
succeeds.  The claim (and the spec) require the missing index to be
defaulted to the zero-size placeholder, so this is a defect of the code. -/
theorem fetch_position_inverse_futures_missing_index :
    fetch_position_inverse_futures_sides [futLongEntry] = none ∧
      fetch_position_inverse_futures_sides [futLongEntry, futShrtEntry] =
        some (futLongEntry.data_pos, futShrtEntry.data_pos) := by
  constructor <;> rfl

/-- Claim C4: in every reconciled `Position`, `equity` is the wallet
balance plus the two sides' unrealized PnL, and each side's unrealized PnL
is `0` exactly when that side's entry price is `0`, otherwise the value of
the externally supplied pricing function at (entry price, mark price,
signed size, inversion flag, contract multiplier). -/
theorem build_position_equity (calc_long_pnl calc_shrt_pnl : ℚ → ℚ → ℚ → Bool → ℚ → ℚ)
    (mark_price : ℚ) (inverse : Bool) (contract_multiplier : ℚ)
    (long_pos shrt_pos : RawPos) (wallet_balance : ℚ) :
    (build_position calc_long_pnl calc_shrt_pnl mark_price inverse contract_multiplier
        long_pos shrt_pos wallet_balance).equity =
      (build_position calc_long_pnl calc_shrt_pnl mark_price inverse contract_multiplier
        long_pos shrt_pos wallet_balance).wallet_balance +
      (build_position calc_long_pnl calc_shrt_pnl mark_price inverse contract_multiplier
        long_pos shrt_pos wallet_balance).long.upnl +
      (build_position calc_long_pnl calc_shrt_pnl mark_price inverse contract_multiplier
        long_pos shrt_pos wallet_balance).shrt.upnl ∧
    ((build_position calc_long_pnl calc_shrt_pnl mark_price inverse contract_multiplier
        long_pos shrt_pos wallet_balance).long.price = 0 →
      (build_position calc_long_pnl calc_shrt_pnl mark_price inverse contract_multiplier
        long_pos shrt_pos wallet_balance).long.upnl = 0) ∧
    ((build_position calc_long_pnl calc_shrt_pnl mark_price inverse contract_multiplier
        long_pos shrt_pos wallet_balance).shrt.price = 0 →
      (build_position calc_long_pnl calc_shrt_pnl mark_price inverse contract_multiplier
        long_pos shrt_pos wallet_balance).shrt.upnl = 0) ∧
    ((build_position calc_long_pnl calc_shrt_pnl mark_price inverse contract_multiplier
        long_pos shrt_pos wallet_balance).long.price ≠ 0 →
      (build_position calc_long_pnl calc_shrt_pnl mark_price inverse contract_multiplier
        long_pos shrt_pos wallet_balance).long.upnl =
        calc_long_pnl long_pos.entry_price mark_price long_pos.size inverse
          contract_multiplier) ∧
    ((build_position calc_long_pnl calc_shrt_pnl mark_price inverse contract_multiplier
        long_pos shrt_pos wallet_balance).shrt.price ≠ 0 →
      (build_position calc_long_pnl calc_shrt_pnl mark_price inverse contract_multiplier
        long_pos shrt_pos wallet_balance).shrt.upnl =
        calc_shrt_pnl shrt_pos.entry_price mark_price (-shrt_pos.size) inverse
          contract_multiplier) := by
  simp only [build_position]
  refine ⟨by ring, ?_, ?_, ?_, ?_⟩
  · intro h
    rw [if_neg (fun hc => hc h)]
  · intro h
    rw [if_neg (fun hc => hc h)]
  · intro h
    rw [if_pos h]
  · intro h
    rw [if_pos h]

/-- Claim C8: assuming the vendor-reported sizes are non-negative, the
reconciled position has `long.size ≥ 0` and `shrt.size ≤ 0` (the short
magnitude is stored negated). -/
theorem build_position_size_signs (calc_long_pnl calc_shrt_pnl : ℚ → ℚ → ℚ → Bool → ℚ → ℚ)
    (mark_price : ℚ) (inverse : Bool) (contract_multiplier : ℚ)
    (long_pos shrt_pos : RawPos) (wallet_balance : ℚ)
    (hl : 0 ≤ long_pos.size) (hs : 0 ≤ shrt_pos.size) :
    0 ≤ (build_position calc_long_pnl calc_shrt_pnl mark_price inverse contract_multiplier
        long_pos shrt_pos wallet_balance).long.size ∧
      (build_position calc_long_pnl calc_shrt_pnl mark_price inverse contract_multiplier
        long_pos shrt_pos wallet_balance).shrt.size ≤ 0 := by
  simp only [build_position]
  exact ⟨hl, neg_nonpos.mpr hs⟩

/-- Claim C8 (witness): the sign invariant at a concrete reconciled
position. -/
theorem build_position_size_signs_witness :
    0 ≤ (build_position (fun _ _ _ _ _ => 0) (fun _ _ _ _ _ => 0) 105 true 1
        futLongEntry.data_pos futShrtEntry.data_pos 3).long.size ∧
      (build_position (fun _ _ _ _ _ => 0) (fun _ _ _ _ _ => 0) 105 true 1
        futLongEntry.data_pos futShrtEntry.data_pos 3).shrt.size ≤ 0 :=
  build_position_size_signs (fun _ _ _ _ _ => 0) (fun _ _ _ _ _ => 0) 105 true 1
    futLongEntry.data_pos futShrtEntry.data_pos 3 (by decide) (by decide)

/-! #### Association-list lemmas -/

/-- Lookup at the head key. -/
theorem lookup_cons_self {β : Type} (k : String) (v : β) (l : List (String × β)) :
    List.lookup k ((k, v) :: l) = some v := by
  simp [List.lookup]

/-- Lookup skips a head with a different key. -/
theorem lookup_cons_ne {β : Type} {k w : String} (v : β) (l : List (String × β))
    (h : k ≠ w) : List.lookup k ((w, v) :: l) = List.lookup k l := by
  simp [List.lookup, beq_eq_false_iff_ne.mpr h]

/-- After `dict_update d k v`, looking up `k` finds `v`. -/
theorem lookup_dict_update_self (d : List (String × PVal)) (k : String) (v : PVal) :
    List.lookup k (dict_update d k v) = some v := by
  rw [dict_update]
  by_cases hc : d.any (fun kv => kv.1 == k)
  · rw [if_pos hc]
    induction d with
    | nil => simp at hc
    | cons x xs ih =>
      rcases x with ⟨xk, xv⟩
      simp only [List.any_cons, Bool.or_eq_true] at hc
      by_cases hx : (xk == k) = true
      · simp only [List.map_cons]
        rw [if_pos hx]
        exact lookup_cons_self k v _
      · simp only [List.map_cons]
        rw [if_neg hx]
        rw [lookup_cons_ne _ _ (fun he => hx (by simp [he]))]
        exact ih (hc.resolve_left hx)
  · rw [if_neg hc]
    induction d with
    | nil => exact lookup_cons_self k v []
    | cons x xs ih =>
      rcases x with ⟨xk, xv⟩
      have hx : ¬ ((xk == k) = true) := fun hb =>
        hc (by simp [List.any_cons, hb])
      have hxs : ¬ (xs.any (fun kv => kv.1 == k) = true) := fun hb =>
        hc (by simp [List.any_cons, hb])
      rw [List.cons_append, lookup_cons_ne _ _ (fun he => hx (by simp [he]))]
      exact ih hxs

/-- `dict_update d k v` leaves the lookup of every other key unchanged. -/
theorem lookup_dict_update_ne (d : List (String × PVal)) {w k : String} (v : PVal)
    (h : w ≠ k) : List.lookup w (dict_update d k v) = List.lookup w d := by
  rw [dict_update]
  by_cases hc : d.any (fun kv => kv.1 == k)
  · rw [if_pos hc]
    clear hc
    induction d with
    | nil => rfl
    | cons x xs ih =>
      rcases x with ⟨xk, xv⟩
      by_cases hx : (xk == k) = true
      · have hxk : xk = k := by simpa using hx
        simp only [List.map_cons]
        rw [if_pos hx, lookup_cons_ne _ _ h,
          lookup_cons_ne _ _ (fun he => h (he.trans hxk)), ih]
      · simp only [List.map_cons]
        rw [if_neg hx]
        by_cases hw : w = xk
        · subst hw
          rw [lookup_cons_self, lookup_cons_self]
        · rw [lookup_cons_ne _ _ hw, lookup_cons_ne _ _ hw, ih]
  · rw [if_neg hc]
    induction d with
    | nil => exact lookup_cons_ne _ _ h
    | cons x xs ih =>
      rcases x with ⟨xk, xv⟩
      have hxs : ¬ (xs.any (fun kv => kv.1 == k) = true) := fun hb =>
        hc (by simp [List.any_cons, hb])
      by_cases hw : w = xk
      · subst hw
        rw [List.cons_append, lookup_cons_self, lookup_cons_self]
      · rw [List.cons_append, lookup_cons_ne _ _ hw, lookup_cons_ne _ _ hw, ih hxs]

/-- A pair whose key is not the updated one survives `dict_update`. -/
theorem mem_dict_update_of_ne {d : List (String × PVal)} {kv : String × PVal}
    {k : String} (v : PVal) (h : kv.1 ≠ k) (hm : kv ∈ d) :
    kv ∈ dict_update d k v := by
  rw [dict_update]
  by_cases hc : d.any (fun x => x.1 == k)
  · rw [if_pos hc]
    have he : (fun x : String × PVal => if x.1 == k then (k, v) else x) kv = kv := by
      simp [beq_eq_false_iff_ne.mpr h]
    exact he ▸ List.mem_map_of_mem _ hm
  · rw [if_neg hc]
    exact List.mem_append_left _ hm

/-- Lookup through the coercion map. -/
theorem lookup_coerce_params (fs : ℚ → String) (k : String) :
    ∀ d : List (String × PVal),
      List.lookup k (coerce_params fs d) = (List.lookup k d).map (coerce_param fs)
  | [] => rfl
  | ⟨xk, xv⟩ :: xs => by
    by_cases hw : k = xk
    · subst hw
      rw [coerce_params, List.map_cons]
      rw [lookup_cons_self, lookup_cons_self]
      rfl
    · rw [coerce_params, List.map_cons] at *
      rw [lookup_cons_ne _ _ hw, lookup_cons_ne _ _ hw]
      exact lookup_coerce_params fs k xs

/-! #### Sortedness of the modelled `sort_dict_keys` -/

/-- Membership in an insertion. -/
theorem mem_insert_by_key {y kv : String × PVal} {l : List (String × PVal)} :
    y ∈ insert_by_key kv l ↔ y = kv ∨ y ∈ l := by
  induction l with
  | nil => simp [insert_by_key]
  | cons x xs ih =>
    rw [insert_by_key]
    by_cases h : kv.1 ≤ x.1
    · rw [if_pos h]
      simp [List.mem_cons]
    · rw [if_neg h]
      simp only [List.mem_cons, ih]
      tauto

/-- Inserting into a key-sorted list keeps it key-sorted. -/
theorem pairwise_insert_by_key {kv : String × PVal} {l : List (String × PVal)}
    (h : l.Pairwise (fun a b => a.1 ≤ b.1)) :
    (insert_by_key kv l).Pairwise (fun a b => a.1 ≤ b.1) := by
  induction l with
  | nil => simp [insert_by_key]
  | cons x xs ih =>
    rcases List.pairwise_cons.mp h with ⟨hx, hxs⟩
    rw [insert_by_key]
    by_cases hle : kv.1 ≤ x.1
    · rw [if_pos hle]
      refine List.pairwise_cons.mpr ⟨?_, h⟩
      intro y hy
      rcases List.mem_cons.mp hy with rfl | hy
      · exact hle
      · exact le_trans hle (hx y hy)
    · rw [if_neg hle]
      refine List.pairwise_cons.mpr ⟨?_, ih hxs⟩
      intro y hy
      rcases mem_insert_by_key.mp hy with rfl | hy
      · exact le_of_not_le hle
      · exact hx y hy

/-- The modelled `sort_dict_keys` really sorts by key. -/
theorem sort_dict_keys_pairwise (d : List (String × PVal)) :
    (sort_dict_keys d).Pairwise (fun a b => a.1 ≤ b.1) := by
  induction d with
  | nil => exact List.Pairwise.nil
  | cons x xs ih => exact pairwise_insert_by_key ih

/-! #### Claim C5 -/

/-- Claim C5: the signing of `Bybit.private_` is deterministic in
(parameters, secret, timestamp) — with the key and the external encoders
fixed — and follows exactly the spec's steps: `api_key` and the integer
millisecond timestamp are injected into the parameters (and are fields of
the sent dict), bool values are coerced to `"true"`/`"false"` and float
values to their decimal-string form, the parameters are sorted by key,
URL-encoded, HMAC-SHA256-digested with the secret as the key, and the hex
digest rides along as the `sign` field. -/
theorem private_sign_steps (hmac_sha256 : String → String → String)
    (urlencode : List (String × PVal) → String) (float_str : ℚ → String)
    (key secret : String) (params : List (String × PVal)) (t : Int) :
    (∀ params2 t2, params2 = params → t2 = t →
        private_sign hmac_sha256 urlencode float_str key secret params2 t2 =
          private_sign hmac_sha256 urlencode float_str key secret params t) ∧
      List.lookup "sign" (private_sign hmac_sha256 urlencode float_str key secret params t) =
        some (PVal.str (hmac_sha256 secret (urlencode (sort_dict_keys
          (coerce_params float_str (inject_auth key t params)))))) ∧
      List.lookup "api_key"
          (private_sign hmac_sha256 urlencode float_str key secret params t) =
        some (PVal.str key) ∧
      List.lookup "timestamp"
          (private_sign hmac_sha256 urlencode float_str key secret params t) =
        some (PVal.intv t) ∧
      (sort_dict_keys (coerce_params float_str (inject_auth key t params))).Pairwise
        (fun a b => a.1 ≤ b.1) ∧
      (∀ k b, (k, PVal.boolv b) ∈ params → k ≠ "api_key" → k ≠ "timestamp" → k ≠ "sign" →
        (k, PVal.str (if b then "true" else "false")) ∈
          private_sign hmac_sha256 urlencode float_str key secret params t) ∧
      (∀ k x, (k, PVal.floatv x) ∈ params → k ≠ "api_key" → k ≠ "timestamp" → k ≠ "sign" →
        (k, PVal.str (float_str x)) ∈
          private_sign hmac_sha256 urlencode float_str key secret params t) := by
  refine ⟨?_, ?_, ?_, ?_, sort_dict_keys_pairwise _, ?_, ?_⟩
  · intro params2 t2 h1 h2
    rw [h1, h2]
  · rw [private_sign]
    exact lookup_dict_update_self _ _ _
  · rw [private_sign]
    rw [lookup_dict_update_ne _ _ (by decide)]
    rw [lookup_coerce_params]
    rw [inject_auth, lookup_dict_update_ne _ _ (by decide), lookup_dict_update_self]
    rfl
  · rw [private_sign]
    rw [lookup_dict_update_ne _ _ (by decide)]
    rw [lookup_coerce_params]
    rw [inject_auth, lookup_dict_update_self]
    rfl
  · intro k b hm h1 h2 h3
    rw [private_sign]
    refine mem_dict_update_of_ne _ h3 ?_
    have hcs : ((k, PVal.boolv b).1, coerce_param float_str (k, PVal.boolv b).2) ∈
        coerce_params float_str (inject_auth key t params) :=
      List.mem_map_of_mem _
        (mem_dict_update_of_ne _ h2 (mem_dict_update_of_ne _ h1 hm))
    exact hcs
  · intro k x hm h1 h2 h3
    rw [private_sign]
    refine mem_dict_update_of_ne _ h3 ?_
    have hcs : ((k, PVal.floatv x).1, coerce_param float_str (k, PVal.floatv x).2) ∈
        coerce_params float_str (inject_auth key t params) :=
      List.mem_map_of_mem _
        (mem_dict_update_of_ne _ h2 (mem_dict_update_of_ne _ h1 hm))
    exact hcs

/-- Claim C10: when the vendor reports the cancelled order id as not found
(already filled or already cancelled), `execute_cancellation` returns the
normalized success record {symbol, side, position_side, qty, price}, not an
error — indeed the returned record is the same for every vendor response. -/
theorem execute_cancellation_not_found_ok (resp : List (String × String))
    (symbol : String) (order : RestingOrder) :
    (reports_not_found resp = true →
        execute_cancellation resp symbol order =
          { symbol := symbol, side := order.side,
            position_side := order.position_side,
            qty := order.qty, price := order.price }) ∧
      (∀ resp2, execute_cancellation resp symbol order =
        execute_cancellation resp2 symbol order) :=
  ⟨fun _ => rfl, fun _ => rfl⟩

end BybitAdapter
